import Mathlib

/-!
Verification of the buggywug debugging-session engine against its
natural-language specification.

The embedding follows the TypeScript source:
  * `src/core/errorDetector.ts` — the pattern-based classifier
    (`ErrorDetector.detect`, `ErrorDetector.createAnalysis`);
  * `src/core/debugEngine.ts` — the session store and orchestrator
    (`DebugEngine.analyzeError`, `generateFixes`, `applyFix`,
    `detectPackageManager` and the per-category fix constructors);
  * `src/types/index.ts` — the data model.

Strings are `List Char`.  JavaScript regular-expression matching
(`String.prototype.match`) is modelled by a small backtracking matcher
(`mtch` / `jsMatch`) over an explicit expression type `Re`; it implements
the leftmost-position, greedy-with-backtracking semantics that the
patterns in the source rely on, including capture groups.  Asynchronous
external collaborators (the Ollama inference gateway, `execAsync`,
`fs.access`, `console.log`) are modelled by oracle parameters and an
explicit effect trace, so that deferred fix actions are inspectable data
interpreted by `runFixOp`.
-/

deriving instance DecidableEq for Except

namespace Buggywug

/-- Strings of the embedded program. -/
abbrev Str := List Char

/-- The single-quote character, written via its code point. -/
def quoteChar : Char := Char.ofNat 39

/-- The line-feed character. -/
def lfChar : Char := Char.ofNat 10

/-- JavaScript `.` (without the `s` flag) matches every character except
the four line terminators LF, CR, LINE SEPARATOR and PARAGRAPH SEPARATOR. -/
def notLineTerm (c : Char) : Bool :=
  !(c == Char.ofNat 10 || c == Char.ofNat 13 ||
    c == Char.ofNat 0x2028 || c == Char.ofNat 0x2029)

/-- Character class `[^():]` of the location pattern (it does match
line terminators). -/
def notParenColon (c : Char) : Bool :=
  !(c == Char.ofNat 40 || c == Char.ofNat 41 || c == Char.ofNat 58)

/-- Capture registers of a regular-expression match; the source uses at
most two capture groups per pattern (`match[1]`, `match[2]`). -/
structure Caps where
  c1 : Option Str
  c2 : Option Str
deriving DecidableEq

/-- Initially no group has captured. -/
def emptyCaps : Caps := ⟨none, none⟩

/-- Regular expressions, restricted to exactly the constructs appearing in
the source patterns: literals, greedy `+` and `*` over a character class,
concatenation, alternation, greedy `?`, and numbered capture groups. -/
inductive Re where
  | str (l : Str)
  | plusCls (p : Char → Bool)
  | starCls (p : Char → Bool)
  | seq (a b : Re)
  | alt (a b : Re)
  | opt (a : Re)
  | grp (i : Nat) (a : Re)

/-- Record the text consumed by capture group `i`. -/
def setCap (caps : Caps) (i : Nat) (v : Str) : Caps :=
  if i = 1 then { caps with c1 := some v }
  else if i = 2 then { caps with c2 := some v }
  else caps

/-- Greedy backtracking over the lengths `n, n-1, …, 1`: try the
continuation after dropping that many characters, longest first. -/
def tryLens (s : Str) (caps : Caps) (k : Str → Caps → Option (Str × Caps)) :
    Nat → Option (Str × Caps)
  | 0 => none
  | n + 1 =>
    match k (s.drop (n + 1)) caps with
    | some r => some r
    | none => tryLens s caps k n

/-- Backtracking matcher in continuation-passing style; matches `re` at the
start of `s` and hands the remaining suffix and captures to `k`.  Greedy
quantifiers try the longest candidate first, alternation tries the left
branch first — the JavaScript backtracking order. -/
def mtch : Re → Str → Caps → (Str → Caps → Option (Str × Caps)) →
    Option (Str × Caps)
  | Re.str l, s, caps, k => if l.isPrefixOf s then k (s.drop l.length) caps else none
  | Re.plusCls p, s, caps, k => tryLens s caps k (s.takeWhile p).length
  | Re.starCls p, s, caps, k =>
    match tryLens s caps k (s.takeWhile p).length with
    | some r => some r
    | none => k s caps
  | Re.seq a b, s, caps, k => mtch a s caps fun s2 caps2 => mtch b s2 caps2 k
  | Re.alt a b, s, caps, k =>
    match mtch a s caps k with
    | some r => some r
    | none => mtch b s caps k
  | Re.opt a, s, caps, k =>
    match mtch a s caps k with
    | some r => some r
    | none => k s caps
  | Re.grp i a, s, caps, k =>
    mtch a s caps fun s2 caps2 => k s2 (setCap caps2 i (s.take (s.length - s2.length)))

/-- Attempt a match anchored at the start of `s`; on success return the
remaining suffix and the captures. -/
def execAt (re : Re) (s : Str) : Option (Str × Caps) :=
  mtch re s emptyCaps fun s2 caps => some (s2, caps)

/-- Result of `String.prototype.match`: the full matched substring
(`match[0]`) and the two possible captures (`match[1]`, `match[2]`). -/
structure MatchRes where
  m0 : Str
  c1 : Option Str
  c2 : Option Str
deriving DecidableEq

/-- Build a `MatchRes` from the suffix the match started at and the
matcher outcome. -/
def mkRes (s : Str) (r : Str × Caps) : MatchRes :=
  ⟨s.take (s.length - r.1.length), r.2.c1, r.2.c2⟩

/-- JavaScript `text.match(re)`: try each start position from the left;
the first position at which the pattern matches wins. -/
def jsMatch (re : Re) : Str → Option MatchRes
  | [] => (execAt re []).map (mkRes [])
  | c :: rest =>
    match execAt re (c :: rest) with
    | some r => some (mkRes (c :: rest) r)
    | none => jsMatch re rest

/-- Concatenation of a list of expressions. -/
def seqs (l : List Re) : Re := l.foldr Re.seq (Re.str [])

/-- A capturing `(.+)` as group `i`. -/
def dotPlus (i : Nat) : Re := Re.grp i (Re.plusCls notLineTerm)

/-- Pattern of the common shape `LITERAL(.+)`. -/
def litCap (pre : String) : Re := Re.seq (Re.str pre.toList) (dotPlus 1)

/-- `ErrorDetector.patterns.syntax` of `src/core/errorDetector.ts`. -/
def syntaxPats : List Re :=
  [litCap "SyntaxError: ",
   litCap "ParseError: ",
   litCap "Unexpected token ",
   litCap "Unterminated "]

/-- `ErrorDetector.patterns.type`. -/
def typePats : List Re :=
  [litCap "TypeError: ",
   seqs [Re.str "Type '".toList, dotPlus 1,
         Re.str "' is not assignable to type '".toList,
         Re.grp 2 (Re.plusCls notLineTerm), Re.str "'".toList],
   seqs [Re.str "Property '".toList, dotPlus 1,
         Re.str "' does not exist on type '".toList,
         Re.grp 2 (Re.plusCls notLineTerm), Re.str "'".toList]]

/-- `ErrorDetector.patterns.module`. -/
def modulePats : List Re :=
  [seqs [Re.str "Cannot find module '".toList, dotPlus 1, Re.str "'".toList],
   litCap "Module not found: ",
   seqs [Re.str "Failed to resolve import \"".toList, dotPlus 1, Re.str "\"".toList],
   seqs [Re.str "No module named '".toList, dotPlus 1, Re.str "'".toList]]

/-- `ErrorDetector.patterns.runtime`. -/
def runtimePats : List Re :=
  [litCap "ReferenceError: ",
   litCap "RangeError: ",
   Re.str "Maximum call stack size exceeded".toList]

/-- `ErrorDetector.patterns.permission`. -/
def permissionPats : List Re :=
  [Re.str "Permission denied".toList,
   Re.str "EACCES: permission denied".toList,
   Re.str "Operation not permitted".toList]

/-- `ErrorDetector.patterns.command`. -/
def commandPats : List Re :=
  [litCap "command not found: ",
   seqs [Re.str "bash: ".toList, dotPlus 1, Re.str ": command not found".toList],
   litCap "zsh: command not found: "]

/-- The secondary location pattern of `createAnalysis`:
the regex written `(?:at |in |from )(?:.*\()?([^():]+):(\d+)` in the source. -/
def fileRe : Re :=
  seqs [Re.alt (Re.str "at ".toList) (Re.alt (Re.str "in ".toList) (Re.str "from ".toList)),
        Re.opt (Re.seq (Re.starCls notLineTerm) (Re.str "(".toList)),
        Re.grp 1 (Re.plusCls notParenColon),
        Re.str ":".toList,
        Re.grp 2 (Re.plusCls Char.isDigit)]

/-- `ErrorType` of `src/types/index.ts` (enum member names). -/
inductive ErrorType where
  | SYNTAX | RUNTIME | TYPE | COMMAND | MODULE | PERMISSION | UNKNOWN
deriving DecidableEq

/-- `ErrorAnalysis` of `src/types/index.ts` — the Diagnosis of the spec. -/
structure ErrorAnalysis where
  type : ErrorType
  message : Str
  file : Option Str := none
  line : Option Nat := none
  suggestion : Option Str := none
  confidence : ℚ
deriving DecidableEq

/-- The ordered pattern table: `Object.entries(this.patterns)` iterates the
declaration order syntax, type, module, runtime, permission, command. -/
def patternTable : List (ErrorType × List Re) :=
  [(ErrorType.SYNTAX, syntaxPats),
   (ErrorType.TYPE, typePats),
   (ErrorType.MODULE, modulePats),
   (ErrorType.RUNTIME, runtimePats),
   (ErrorType.PERMISSION, permissionPats),
   (ErrorType.COMMAND, commandPats)]

/-- `parseInt(digits, 10)` on a string of decimal digits. -/
def digitsToNat (s : Str) : Nat := s.foldl (fun n c => n * 10 + (c.toNat - 48)) 0

/-- File and line extracted by `createAnalysis` from the full error text:
`fullError.match(fileRe)` followed by `match[1]` / `parseInt(match[2], 10)`. -/
def locOf (fullError : Str) : Option Str × Option Nat :=
  match jsMatch fileRe fullError with
  | some m =>
    match m.c1, m.c2 with
    | some f, some d => (some f, some (digitsToNat d))
    | _, _ => (none, none)
  | none => (none, none)

/-- JavaScript template interpolation of a possibly-undefined value. -/
def interpOpt (o : Option Str) : Str :=
  match o with
  | some s => s
  | none => "undefined".toList

/-- `ErrorDetector.createAnalysis`: message is the full matched substring,
confidence the fixed prior 0.8, location from the secondary pattern, and a
category-specific suggestion for module / command / permission. -/
def createAnalysis (type : ErrorType) (message : Str) (fullError : Str)
    (detail : Option Str) : ErrorAnalysis :=
  let loc := locOf fullError
  let base : ErrorAnalysis :=
    { type := type, message := message, file := loc.1, line := loc.2,
      confidence := 0.8 }
  match type with
  | ErrorType.MODULE =>
    { base with suggestion := some ("Install missing module: ".toList ++ interpOpt detail) }
  | ErrorType.COMMAND =>
    { base with suggestion := some ("Command not found: ".toList ++
        interpOpt detail ++ ". Check if it's installed or in PATH.".toList) }
  | ErrorType.PERMISSION =>
    { base with suggestion := some ("Try running with elevated permissions or check file ownership.".toList) }
  | _ => base

/-- Scan one category's patterns in declaration order, tagging the first
match with the category. -/
def scanPats (t : ErrorType) (ps : List Re) (text : Str) :
    Option (ErrorType × MatchRes) :=
  ps.findSome? fun re => (jsMatch re text).map fun m => (t, m)

/-- First category (in priority order) one of whose patterns matches,
together with that category's first matching pattern's match. -/
def firstMatch (text : Str) : Option (ErrorType × MatchRes) :=
  patternTable.findSome? fun tp => scanPats tp.1 tp.2 text

/-- The pattern-scanning loop of `ErrorDetector.detect`: first overall
match wins and is turned into an analysis via `createAnalysis`. -/
def detectCore (text : Str) : Option ErrorAnalysis :=
  patternTable.findSome? fun tp =>
    tp.2.findSome? fun re =>
      (jsMatch re text).map fun m => createAnalysis tp.1 m.m0 text m.c1

/-- `errorText.split('\n')[0]`. -/
def firstLine (s : Str) : Str := s.takeWhile fun c => !(c == lfChar)

/-- `DebugContext` of `src/types/index.ts` (the timestamp, unused by the
core logic, is omitted). -/
structure DebugContext where
  command : Str
  output : Str
  error : Str
  workingDirectory : Str
deriving DecidableEq

/-- `context.error || context.output` — JavaScript `||` falls through on
the empty string. -/
def errText (ctx : DebugContext) : Str :=
  if ctx.error = [] then ctx.output else ctx.error

/-- `ErrorDetector.detect`: no text means nothing to diagnose; a pattern
match yields a 0.8-confidence analysis; otherwise the unknown fallback with
confidence 0.5 and the first line as message. -/
def detect (ctx : DebugContext) : Option ErrorAnalysis :=
  let text := errText ctx
  if text = [] then none
  else
    match detectCore text with
    | some a => some a
    | none =>
      some { type := ErrorType.UNKNOWN, message := firstLine text, confidence := 0.5 }

/-- `FixType` of `src/types/index.ts` (enum member names). -/
inductive FixType where
  | COMMAND | FILE_EDIT | INSTALL_PACKAGE | PERMISSION_CHANGE | CONFIG_UPDATE
deriving DecidableEq

/-- The deferred operations the engine attaches to fixes, one constructor
per `apply` closure in `src/core/debugEngine.ts`:
package install, advisory message, conditional `chmod +x`, and the
AI-suggested command run in the session's working directory. -/
inductive FixOp where
  | moduleInstall (moduleName : Str)
  | commandAdvice (command : Str)
  | permissionChange (file : Option Str)
  | aiCommand (command : Str) (cwd : Str)
deriving DecidableEq

/-- `Fix` of `src/types/index.ts`; the `apply` closure is the deferred
operation above. -/
structure Fix where
  type : FixType
  description : Str
  confidence : ℚ
  apply : FixOp
deriving DecidableEq

/-- Observable side effects of a deferred operation: an `fs.access` probe,
an `execAsync` subprocess (with optional working directory), or a
`console.log`. -/
inductive Effect where
  | fsProbe (file : Str)
  | exec (cmd : Str) (cwd : Option Str)
  | consoleLog (msg : Str)
deriving DecidableEq

/-- Environment oracle for the external world: which lock files exist
(`fs.access`), and the outcome of each spawned command (`execAsync`),
where `Except.error e` is the failure the subprocess call raises. -/
structure Env where
  fileExists : Str → Bool
  execOutcome : Str → Option Str → Except Str Unit

/-- The lock-file probe table of `detectPackageManager`, in its fixed
priority order bun, pnpm, yarn, npm. -/
def managerTable : List (Str × Str) :=
  [("bun".toList, "bun.lockb".toList),
   ("pnpm".toList, "pnpm-lock.yaml".toList),
   ("yarn".toList, "yarn.lock".toList),
   ("npm".toList, "package-lock.json".toList)]

/-- Probe the markers in order; first marker present wins, default `npm`.
Returns the chosen manager and the probe effects performed. -/
def probeManagers (env : Env) : List (Str × Str) → Str × List Effect
  | [] => ("npm".toList, [])
  | (cmd, file) :: rest =>
    if env.fileExists file then (cmd, [Effect.fsProbe file])
    else
      let r := probeManagers env rest
      (r.1, Effect.fsProbe file :: r.2)

/-- `DebugEngine.detectPackageManager`. -/
def detectPackageManager (env : Env) : Str × List Effect :=
  probeManagers env managerTable

/-- Interpreter for deferred fix operations: the effects performed and the
outcome (`Except.error` is the failure the closure raises, passed through
verbatim from the environment). -/
def runFixOp (op : FixOp) (env : Env) : List Effect × Except Str Unit :=
  match op with
  | FixOp.moduleInstall name =>
    let pm := detectPackageManager env
    let cmd := pm.1 ++ " add ".toList ++ name
    (pm.2 ++ [Effect.exec cmd none], env.execOutcome cmd none)
  | FixOp.commandAdvice c =>
    ([Effect.consoleLog ("Please install ".toList ++ c ++
       " or ensure it's in your PATH".toList)], Except.ok ())
  | FixOp.permissionChange none => ([], Except.ok ())
  | FixOp.permissionChange (some f) =>
    ([Effect.exec ("chmod +x ".toList ++ f) none],
     env.execOutcome ("chmod +x ".toList ++ f) none)
  | FixOp.aiCommand cmd cwd =>
    ([Effect.exec cmd (some cwd)], env.execOutcome cmd (some cwd))

/-- `DebugSession` of `src/types/index.ts` (the start time, unused by the
logic, is omitted). -/
structure DebugSession where
  id : Str
  context : DebugContext
  analysis : Option ErrorAnalysis := none
  fixes : Option (List Fix) := none
  applied : Bool := false
deriving DecidableEq

/-- The session store `DebugEngine.sessions : Map<string, DebugSession>`,
modelled as an association list with at most one binding per key. -/
structure EngineState where
  sessions : List (Str × DebugSession)
deriving DecidableEq

/-- `this.sessions.get(sessionId)`. -/
def getSession (st : EngineState) (sid : Str) : Option DebugSession :=
  st.sessions.lookup sid

/-- `DebugEngine.createSession`; the fresh random identifier produced by
`randomBytes` is supplied by the caller of the model. -/
def createSession (st : EngineState) (sid : Str) (ctx : DebugContext) : EngineState :=
  ⟨(sid, { id := sid, context := ctx }) :: st.sessions⟩

/-- Replace the (first) binding of `sid`, modelling in-place mutation of
the session object held in the map. -/
def updateSessions (sid : Str) (f : DebugSession → DebugSession) :
    List (Str × DebugSession) → List (Str × DebugSession)
  | [] => []
  | (k, s) :: rest =>
    if k = sid then (k, f s) :: rest else (k, s) :: updateSessions sid f rest

/-- State after mutating one session. -/
def updateSession (st : EngineState) (sid : Str) (f : DebugSession → DebugSession) :
    EngineState :=
  ⟨updateSessions sid f st.sessions⟩

/-- Failures thrown by `analyzeError` / `generateFixes`. -/
inductive EngineError where
  | sessionNotFound
  | noAnalysisAvailable
deriving DecidableEq

/-- `DebugEngine.analyzeError`: look up the session, run the detector,
and on success overwrite the suggestion with the inference gateway's
response `ai` (the `ollamaService.analyzeError` result, supplied as an
oracle) before storing the analysis on the session. -/
def analyzeError (st : EngineState) (sid : Str) (ai : Str) :
    Except EngineError (EngineState × Option ErrorAnalysis) :=
  match getSession st sid with
  | none => Except.error EngineError.sessionNotFound
  | some session =>
    match detect session.context with
    | none => Except.ok (st, none)
    | some analysis =>
      let enriched := { analysis with suggestion := some ai }
      Except.ok (updateSession st sid (fun s => { s with analysis := some enriched }),
        some enriched)

/-- The re-extraction pattern of `createModuleInstallFix`:
`/Cannot find module '(.+)'|Module not found: (.+)/`. -/
def moduleFixRe : Re :=
  Re.alt (seqs [Re.str "Cannot find module '".toList, dotPlus 1, Re.str "'".toList])
    (Re.seq (Re.str "Module not found: ".toList) (Re.grp 2 (Re.plusCls notLineTerm)))

/-- The re-extraction pattern of `createCommandFix`:
`/command not found: (.+)/`. -/
def commandFixRe : Re := litCap "command not found: "

/-- JavaScript `a || b` for a possibly-undefined string: falls through on
`undefined` and on the empty string. -/
def jsOr (o : Option Str) (d : Str) : Str :=
  match o with
  | some s => if s = [] then d else s
  | none => d

/-- `moduleMatch?.[1] || moduleMatch?.[2] || 'unknown'` of
`createModuleInstallFix`. -/
def moduleNameOf (message : Str) : Str :=
  match jsMatch moduleFixRe message with
  | some m => jsOr m.c1 (jsOr m.c2 "unknown".toList)
  | none => "unknown".toList

/-- `commandMatch?.[1] || 'unknown'` of `createCommandFix`. -/
def commandNameOf (message : Str) : Str :=
  match jsMatch commandFixRe message with
  | some m => jsOr m.c1 "unknown".toList
  | none => "unknown".toList

/-- `DebugEngine.createModuleInstallFix`. -/
def createModuleInstallFix (analysis : ErrorAnalysis) : Fix :=
  let moduleName := moduleNameOf analysis.message
  { type := FixType.INSTALL_PACKAGE,
    description := "Install missing module: ".toList ++ moduleName,
    confidence := 0.9,
    apply := FixOp.moduleInstall moduleName }

/-- `DebugEngine.createCommandFix`. -/
def createCommandFix (analysis : ErrorAnalysis) : Fix :=
  let command := commandNameOf analysis.message
  { type := FixType.COMMAND,
    description := "Install or add ".toList ++ command ++ " to PATH".toList,
    confidence := 0.8,
    apply := FixOp.commandAdvice command }

/-- `DebugEngine.createPermissionFix`. -/
def createPermissionFix (analysis : ErrorAnalysis) : Fix :=
  { type := FixType.PERMISSION_CHANGE,
    description := "Fix file permissions".toList,
    confidence := 0.7,
    apply := FixOp.permissionChange analysis.file }

/-- JavaScript `String.prototype.trim` whitespace. -/
def isJsWhitespace (c : Char) : Bool :=
  c == Char.ofNat 32 || c == Char.ofNat 9 || c == Char.ofNat 10 ||
  c == Char.ofNat 11 || c == Char.ofNat 12 || c == Char.ofNat 13

/-- `s.trim()`. -/
def trimStr (s : Str) : Str :=
  ((s.dropWhile isJsWhitespace).reverse.dropWhile isJsWhitespace).reverse

/-- `DebugEngine.createAIFix`; the gateway's `generateResponse` text is the
oracle `aiResponse`.  Empty or whitespace-only responses yield no fix. -/
def createAIFix (ctx : DebugContext) (aiResponse : Str) : Option Fix :=
  let cmd := trimStr aiResponse
  if cmd = [] then none
  else
    some { type := FixType.COMMAND,
           description := "Run suggested fix: ".toList ++ cmd,
           confidence := 0.6,
           apply := FixOp.aiCommand cmd ctx.workingDirectory }

/-- The dispatch of `DebugEngine.generateFixes` on the analysis category. -/
def mkFixes (analysis : ErrorAnalysis) (ctx : DebugContext) (aiResponse : Str) :
    List Fix :=
  match analysis.type with
  | ErrorType.MODULE => [createModuleInstallFix analysis]
  | ErrorType.COMMAND => [createCommandFix analysis]
  | ErrorType.PERMISSION => [createPermissionFix analysis]
  | _ => Option.toList (createAIFix ctx aiResponse)

/-- `DebugEngine.generateFixes`: requires a session with an analysis,
stores the synthesized list on the session and returns it. -/
def generateFixes (st : EngineState) (sid : Str) (aiResponse : Str) :
    Except EngineError (EngineState × List Fix) :=
  match getSession st sid with
  | none => Except.error EngineError.noAnalysisAvailable
  | some session =>
    match session.analysis with
    | none => Except.error EngineError.noAnalysisAvailable
    | some analysis =>
      let fixes := mkFixes analysis session.context aiResponse
      Except.ok (updateSession st sid (fun s => { s with fixes := some fixes }), fixes)

/-- Failures surfaced by `applyFix`: the `Fix not found` guard, or the
failure raised by the deferred operation itself, propagated verbatim. -/
inductive ApplyError where
  | fixNotFound
  | opFailure (e : Str)
deriving DecidableEq

/-- The guard of `applyFix`: `session && session.fixes && session.fixes[fixIndex]`. -/
def selectedFix (st : EngineState) (sid : Str) (idx : Nat) : Option Fix :=
  match getSession st sid with
  | none => none
  | some session =>
    match session.fixes with
    | none => none
    | some fixes => fixes[idx]?

/-- Whether the guard passes, i.e. whether `applyFix` reaches
`await fix.apply()`. -/
def hasFixAt (st : EngineState) (sid : Str) (idx : Nat) : Bool :=
  (selectedFix st sid idx).isSome

/-- Result of one `applyFix` call: the new store, whether the selected
fix's deferred operation was invoked, the effects it performed, and the
outcome surfaced to the caller. -/
structure ApplyResult where
  newState : EngineState
  invoked : Bool
  effects : List Effect
  outcome : Except ApplyError Unit
deriving DecidableEq

/-- `DebugEngine.applyFix`: throw `Fix not found` if the guard fails;
otherwise invoke the deferred operation once and, only on success, set
`applied := true`.  A failure of the operation is propagated and leaves
the store untouched. -/
def applyFix (st : EngineState) (env : Env) (sid : Str) (idx : Nat) : ApplyResult :=
  match selectedFix st sid idx with
  | none => ⟨st, false, [], Except.error ApplyError.fixNotFound⟩
  | some fix =>
    let r := runFixOp fix.apply env
    match r.2 with
    | Except.error e => ⟨st, true, r.1, Except.error (ApplyError.opFailure e)⟩
    | Except.ok _ =>
      ⟨updateSession st sid (fun s => { s with applied := true }), true, r.1, Except.ok ()⟩

/-! ### General helper lemmas -/

theorem findSome?_map_out {α β γ : Type} (g : α → Option β) (h : β → γ) :
    ∀ l : List α, (l.findSome? fun a => (g a).map h) = (l.findSome? g).map h
  | [] => rfl
  | a :: l => by
    cases hg : g a <;>
      simp [List.findSome?_cons, hg, findSome?_map_out g h l]

theorem scanPats_eq (t : ErrorType) (ps : List Re) (text : Str) :
    scanPats t ps text = (ps.findSome? fun re => jsMatch re text).map fun m => (t, m) :=
  findSome?_map_out (fun re => jsMatch re text) (fun m => (t, m)) ps

theorem detectCore_eq (text : Str) :
    detectCore text =
      (firstMatch text).map fun tm => createAnalysis tm.1 tm.2.m0 text tm.2.c1 := by
  unfold detectCore firstMatch
  have inner : ∀ t : ErrorType, ∀ ps : List Re,
      (ps.findSome? fun re => (jsMatch re text).map fun m => createAnalysis t m.m0 text m.c1) =
        (scanPats t ps text).map fun tm => createAnalysis tm.1 tm.2.m0 text tm.2.c1 := by
    intro t ps
    rw [scanPats_eq, Option.map_map, ← findSome?_map_out]
    rfl
  calc patternTable.findSome? (fun tp => tp.2.findSome? fun re =>
          (jsMatch re text).map fun m => createAnalysis tp.1 m.m0 text m.c1)
      = patternTable.findSome? (fun tp => (scanPats tp.1 tp.2 text).map
          fun tm => createAnalysis tm.1 tm.2.m0 text tm.2.c1) := by
        exact congrArg (fun f => List.findSome? f patternTable)
          (funext fun tp : ErrorType × List Re => inner tp.1 tp.2)
    _ = (patternTable.findSome? fun tp => scanPats tp.1 tp.2 text).map
          (fun tm => createAnalysis tm.1 tm.2.m0 text tm.2.c1) :=
        findSome?_map_out _ _ patternTable

theorem createAnalysis_spec (t : ErrorType) (msg full : Str) (d : Option Str) :
    (createAnalysis t msg full d).type = t ∧
    (createAnalysis t msg full d).message = msg ∧
    (createAnalysis t msg full d).confidence = 0.8 ∧
    (createAnalysis t msg full d).file = (locOf full).1 ∧
    (createAnalysis t msg full d).line = (locOf full).2 := by
  cases t <;> simp [createAnalysis]

theorem firstMatch_nil : firstMatch [] = none := by decide

theorem detect_of_firstMatch (ctx : DebugContext) (tm : ErrorType × MatchRes)
    (h : firstMatch (errText ctx) = some tm) :
    detect ctx = some (createAnalysis tm.1 tm.2.m0 (errText ctx) tm.2.c1) := by
  have hne : errText ctx ≠ [] := by
    intro he
    rw [he, firstMatch_nil] at h
    exact Option.noConfusion h
  unfold detect
  rw [if_neg hne, detectCore_eq, h]
  rfl

theorem getSession_update (st : EngineState) (sid : Str)
    (f : DebugSession → DebugSession) :
    getSession (updateSession st sid f) sid = (getSession st sid).map f := by
  unfold getSession updateSession
  induction st.sessions with
  | nil => rfl
  | cons p rest ih =>
    obtain ⟨k, s⟩ := p
    by_cases hk : k = sid
    · subst hk
      simp [updateSessions, List.lookup]
    · simp only [updateSessions, if_neg hk]
      have hbeq : (sid == k) = false := by
        simp [beq_iff_eq]
        exact fun he => hk he.symm
      simp [List.lookup, hbeq, ih]

theorem findSome?_isSome_of_mem {α β : Type} {f : α → Option β} {l : List α} {a : α}
    (ha : a ∈ l) (hf : (f a).isSome) : (l.findSome? f).isSome := by
  induction l with
  | nil => cases ha
  | cons b l ih =>
    cases hb : f b
    · rcases List.mem_cons.mp ha with h | h
      · subst h
        rw [hb] at hf
        cases hf
      · simpa [List.findSome?_cons, hb] using ih h
    · simp [List.findSome?_cons, hb]

/-! ### Concrete sample data used by witnesses and counterexamples -/

/-- Environment in which every spawned command succeeds and no lock file
exists. -/
def okEnv : Env := ⟨fun _ => false, fun _ _ => Except.ok ()⟩

/-- Environment in which every spawned command fails with a fixed error. -/
def failEnv : Env := ⟨fun _ => false, fun _ _ => Except.error "spawn failed".toList⟩

/-- A context whose error text matches no recognition pattern. -/
def sampleCtx : DebugContext := ⟨"node app.js".toList, [], "boom".toList, "/tmp".toList⟩

/-- A fix whose deferred operation runs a command. -/
def sampleFix : Fix :=
  ⟨FixType.COMMAND, "d".toList, 0.6, FixOp.aiCommand "ls".toList "/tmp".toList⟩

/-- An empty session store. -/
def emptyState : EngineState := ⟨[]⟩

/-- A store holding one session that already has a fixes list. -/
def fixedState : EngineState :=
  ⟨[("s".toList, { id := "s".toList, context := sampleCtx, fixes := some [sampleFix] })]⟩

/-- A store holding one freshly created session. -/
def plainState : EngineState := createSession emptyState "s".toList sampleCtx

/-- A permission diagnosis carrying no file path, as `detect` produces for
the bare error text `Permission denied`. -/
def permAnalysis : ErrorAnalysis :=
  { type := ErrorType.PERMISSION, message := "Permission denied".toList,
    suggestion := some ("Try running with elevated permissions or check file ownership.".toList),
    confidence := 0.8 }

/-- A store holding one session carrying `permAnalysis`. -/
def permState : EngineState :=
  ⟨[("s".toList, { id := "s".toList, context := sampleCtx, analysis := some permAnalysis })]⟩

/-- A context whose error text matches both a syntax pattern and a command
pattern. -/
def dualCtx : DebugContext :=
  ⟨"run".toList, [], "SyntaxError: zsh: command not found: gitx".toList, "/tmp".toList⟩

/-- A context producing a type-category match. -/
def typeCtx : DebugContext :=
  ⟨"node app.js".toList, [], "TypeError: x is bad".toList, "/tmp".toList⟩

/-! ### Claim C1 -/

/-- C1, counterexample.  The claim says no sequence of orchestrator calls —
including repeated `applyFix` calls with the same session identifier and
index — runs the same fix's deferred operation a second time.  But
`applyFix` never consults the `applied` flag: two consecutive calls with
the same session and index both pass the guard and both execute the
deferred operation (here, both spawn the same `ls` subprocess). -/
theorem c1_counterexample :
    (applyFix fixedState okEnv "s".toList 0).invoked = true ∧
    (applyFix fixedState okEnv "s".toList 0).effects =
      [Effect.exec "ls".toList (some "/tmp".toList)] ∧
    (applyFix (applyFix fixedState okEnv "s".toList 0).newState okEnv "s".toList 0).invoked
      = true ∧
    (applyFix (applyFix fixedState okEnv "s".toList 0).newState okEnv "s".toList 0).effects
      = [Effect.exec "ls".toList (some "/tmp".toList)] := ⟨rfl, rfl, rfl, rfl⟩

/-- C1, amended.  Within a single `applyFix` call the selected fix's
deferred operation is executed exactly once when the session, fixes list
and index are valid, and not at all otherwise; the engine does not prevent
a later `applyFix` call with the same session and index from executing it
again (see the counterexample). -/
theorem c1_amended (st : EngineState) (env : Env) (sid : Str) (idx : Nat) :
    (applyFix st env sid idx).invoked = hasFixAt st sid idx ∧
    (applyFix st env sid idx).effects =
      (match selectedFix st sid idx with
       | none => []
       | some fix => (runFixOp fix.apply env).1) := by
  unfold applyFix hasFixAt
  cases h : selectedFix st sid idx with
  | none => simp
  | some fix =>
    cases h2 : (runFixOp fix.apply env).2 <;> simp [h2]

/-! ### Claim C3 -/

/-- C3.  The pattern table is scanned in the fixed category order
syntax, type, module, runtime, permission, command (first conjunct), and
for every context whose error text simultaneously matches a syntax
pattern and a command pattern, classification returns category syntax,
never command (second conjunct). -/
theorem c3_priority_syntax_over_command (ctx : DebugContext)
    (hs : ∃ re ∈ syntaxPats, (jsMatch re (errText ctx)).isSome)
    (_hc : ∃ re ∈ commandPats, (jsMatch re (errText ctx)).isSome) :
    patternTable.map Prod.fst =
      [ErrorType.SYNTAX, ErrorType.TYPE, ErrorType.MODULE,
       ErrorType.RUNTIME, ErrorType.PERMISSION, ErrorType.COMMAND] ∧
    ∃ a, detect ctx = some a ∧ a.type = ErrorType.SYNTAX := by
  refine ⟨by decide, ?_⟩
  obtain ⟨re, hmem, hsome⟩ := hs
  have h1 : (syntaxPats.findSome? fun r => jsMatch r (errText ctx)).isSome :=
    findSome?_isSome_of_mem hmem hsome
  obtain ⟨m, hm⟩ := Option.isSome_iff_exists.mp h1
  have hscan : scanPats ErrorType.SYNTAX syntaxPats (errText ctx) =
      some (ErrorType.SYNTAX, m) := by
    rw [scanPats_eq, hm]
    rfl
  have hfm : firstMatch (errText ctx) = some (ErrorType.SYNTAX, m) := by
    simp [firstMatch, patternTable, List.findSome?_cons, hscan]
  exact ⟨_, detect_of_firstMatch ctx (ErrorType.SYNTAX, m) hfm,
    (createAnalysis_spec ErrorType.SYNTAX m.m0 (errText ctx) m.c1).1⟩

/-- C3, witness at a text matching both a syntax and a command pattern. -/
theorem c3_witness :
    (∃ re ∈ syntaxPats, (jsMatch re (errText dualCtx)).isSome) ∧
    (∃ re ∈ commandPats, (jsMatch re (errText dualCtx)).isSome) ∧
    (patternTable.map Prod.fst =
      [ErrorType.SYNTAX, ErrorType.TYPE, ErrorType.MODULE,
       ErrorType.RUNTIME, ErrorType.PERMISSION, ErrorType.COMMAND] ∧
    ∃ a, detect dualCtx = some a ∧ a.type = ErrorType.SYNTAX) :=
  ⟨by decide, by decide,
    c3_priority_syntax_over_command dualCtx (by decide) (by decide)⟩

/-! ### Claim C4 -/

/-- C4.  `applyFix` fails with the `Fix not found` error — leaving the
store untouched, the operation uninvoked and `applied` unset — whenever
the session identifier is unknown, the session has no fixes list, or the
index is out of range; and when the selected fix's deferred operation
raises, the failure is propagated verbatim and the store (hence the
session's `applied` flag) is left unchanged. -/
theorem c4_applyFix_failure (st : EngineState) (env : Env) (sid : Str) (idx : Nat) :
    ((getSession st sid = none ∨
      (∃ s, getSession st sid = some s ∧ s.fixes = none) ∨
      (∃ s fixes, getSession st sid = some s ∧ s.fixes = some fixes ∧
        fixes.length ≤ idx)) →
      applyFix st env sid idx = ⟨st, false, [], Except.error ApplyError.fixNotFound⟩) ∧
    (∀ fix e, selectedFix st sid idx = some fix →
      (runFixOp fix.apply env).2 = Except.error e →
      (applyFix st env sid idx).newState = st ∧
      (applyFix st env sid idx).outcome = Except.error (ApplyError.opFailure e)) := by
  constructor
  · intro h
    have hsel : selectedFix st sid idx = none := by
      rcases h with h | ⟨s, hs, hf⟩ | ⟨s, fixes, hs, hf, hlen⟩
      · simp [selectedFix, h]
      · simp [selectedFix, hs, hf]
      · simp only [selectedFix, hs, hf]
        exact List.getElem?_eq_none hlen
    unfold applyFix
    rw [hsel]
  · intro fix e hsel he
    unfold applyFix
    rw [hsel]
    simp [he]

/-- C4, witness: an unknown session yields `Fix not found` without
touching the store, and a fix whose subprocess fails propagates the
failure verbatim while the store is unchanged. -/
theorem c4_witness :
    applyFix emptyState okEnv "s".toList 0 =
      ⟨emptyState, false, [], Except.error ApplyError.fixNotFound⟩ ∧
    ((applyFix fixedState failEnv "s".toList 0).newState = fixedState ∧
     (applyFix fixedState failEnv "s".toList 0).outcome =
       Except.error (ApplyError.opFailure "spawn failed".toList)) :=
  ⟨(c4_applyFix_failure emptyState okEnv "s".toList 0).1 (Or.inl rfl),
   (c4_applyFix_failure fixedState failEnv "s".toList 0).2 sampleFix
     "spawn failed".toList rfl rfl⟩

/-! ### Claim C5 -/

/-- C5.  Whenever `analyzeError` succeeds with a diagnosis, the analysis
stored on the session is exactly the detector's analysis with its
suggestion overwritten by the inference gateway's enrichment response
(any pattern-derived suggestion is discarded), and its confidence equals
the detector's confidence, unchanged by enrichment. -/
theorem c5_enrichment_overwrites_suggestion (st : EngineState) (sid ai : Str)
    (session : DebugSession) (hs : getSession st sid = some session)
    (st2 : EngineState) (a : ErrorAnalysis)
    (h : analyzeError st sid ai = Except.ok (st2, some a)) :
    ∃ base, detect session.context = some base ∧
      a = { base with suggestion := some ai } ∧
      a.confidence = base.confidence ∧
      a.suggestion = some ai ∧
      getSession st2 sid = some { session with analysis := some a } := by
  simp only [analyzeError, hs] at h
  cases hd : detect session.context with
  | none =>
    rw [hd] at h
    simp at h
  | some base =>
    rw [hd] at h
    simp only [Except.ok.injEq, Prod.mk.injEq, Option.some.injEq] at h
    obtain ⟨hst2, ha⟩ := h
    refine ⟨base, rfl, ha.symm, ?_, ?_, ?_⟩
    · rw [← ha]
    · rw [← ha]
    · rw [← hst2, getSession_update, hs, Option.map_some', ← ha]

/-- The session stored by `plainState`. -/
def session1 : DebugSession := { id := "s".toList, context := sampleCtx }

/-- The enriched analysis `analyzeError` produces on `plainState` with
gateway response `use ls`. -/
def enrichedSample : ErrorAnalysis :=
  { type := ErrorType.UNKNOWN, message := "boom".toList,
    suggestion := some ("use ls".toList), confidence := 0.5 }

/-- The store after that `analyzeError` call. -/
def enrichedState : EngineState :=
  ⟨[("s".toList, { session1 with analysis := some enrichedSample })]⟩

/-- C5, witness on a freshly created session whose text hits the unknown
fallback. -/
theorem c5_witness :
    ∃ base, detect session1.context = some base ∧
      enrichedSample = { base with suggestion := some ("use ls".toList) } ∧
      enrichedSample.confidence = base.confidence ∧
      enrichedSample.suggestion = some ("use ls".toList) ∧
      getSession enrichedState "s".toList =
        some { session1 with analysis := some enrichedSample } :=
  c5_enrichment_overwrites_suggestion plainState "s".toList "use ls".toList
    session1 rfl enrichedState enrichedSample rfl

/-! ### Claim C6 -/

/-- C6.  For every context whose error-or-output text is non-empty and
matches no recognition pattern of any category, `detect` returns the
unknown fallback: category unknown, confidence 0.5, message equal to the
first line of the text, no suggestion and no location. -/
theorem c6_unknown_fallback (ctx : DebugContext) (hne : errText ctx ≠ [])
    (h : firstMatch (errText ctx) = none) :
    detect ctx = some { type := ErrorType.UNKNOWN,
                        message := firstLine (errText ctx),
                        file := none, line := none, suggestion := none,
                        confidence := 0.5 } := by
  unfold detect
  rw [if_neg hne, detectCore_eq, h]
  rfl

/-- C6, witness at the unmatched text `boom`. -/
theorem c6_witness :
    detect sampleCtx = some { type := ErrorType.UNKNOWN,
                              message := firstLine (errText sampleCtx),
                              file := none, line := none, suggestion := none,
                              confidence := 0.5 } :=
  c6_unknown_fallback sampleCtx (by decide) (by decide)

/-! ### Claim C7 -/

/-- C7.  For every error text matching a known recognition pattern, the
returned diagnosis carries the matching category (the first such category
in the priority order, per the spec's priority rule), confidence exactly
0.8, and a message equal to the full matched substring `match[0]` of the
winning pattern — not the whole raw text and not a reformatted version. -/
theorem c7_match_gives_category_confidence_message (ctx : DebugContext)
    (t : ErrorType) (m : MatchRes) (h : firstMatch (errText ctx) = some (t, m)) :
    ∃ a, detect ctx = some a ∧ a.type = t ∧ a.confidence = 0.8 ∧ a.message = m.m0 := by
  have hdet := detect_of_firstMatch ctx (t, m) h
  obtain ⟨h1, h2, h3, _, _⟩ := createAnalysis_spec t m.m0 (errText ctx) m.c1
  exact ⟨_, hdet, h1, h3, h2⟩

/-- C7, witness: the winning match for `TypeError: x is bad` is the type
category with full matched substring equal to the whole line. -/
theorem c7_witness :
    firstMatch (errText typeCtx) =
      some (ErrorType.TYPE,
        ⟨"TypeError: x is bad".toList, some ("x is bad".toList), none⟩) ∧
    ∃ a, detect typeCtx = some a ∧ a.type = ErrorType.TYPE ∧
      a.confidence = 0.8 ∧ a.message = "TypeError: x is bad".toList :=
  ⟨by decide,
   c7_match_gives_category_confidence_message typeCtx ErrorType.TYPE
     ⟨"TypeError: x is bad".toList, some ("x is bad".toList), none⟩ (by decide)⟩

/-! ### Claim C9 -/

/-- C9.  For every permission-category diagnosis carrying no file path,
`generateFixes` returns the permission-change fix with confidence 0.7
whose deferred operation is a safe no-op: in every environment it
succeeds and performs no effect (no filesystem access, no subprocess). -/
theorem c9_permission_fix_is_noop (st : EngineState) (sid ai : Str)
    (session : DebugSession) (analysis : ErrorAnalysis)
    (hs : getSession st sid = some session) (ha : session.analysis = some analysis)
    (ht : analysis.type = ErrorType.PERMISSION) (hf : analysis.file = none) :
    ∃ st2 f, generateFixes st sid ai = Except.ok (st2, [f]) ∧
      f.type = FixType.PERMISSION_CHANGE ∧ f.confidence = 0.7 ∧
      ∀ env, runFixOp f.apply env = ([], Except.ok ()) := by
  simp only [generateFixes, hs, ha, mkFixes, ht]
  refine ⟨_, _, rfl, rfl, rfl, ?_⟩
  intro env
  simp [createPermissionFix, hf, runFixOp]

/-- C9, witness on a session holding a file-less permission diagnosis. -/
theorem c9_witness :
    ∃ st2 f, generateFixes permState "s".toList "ai".toList = Except.ok (st2, [f]) ∧
      f.type = FixType.PERMISSION_CHANGE ∧ f.confidence = 0.7 ∧
      ∀ env, runFixOp f.apply env = ([], Except.ok ()) :=
  c9_permission_fix_is_noop permState "s".toList "ai".toList
    { id := "s".toList, context := sampleCtx, analysis := some permAnalysis }
    permAnalysis rfl rfl rfl rfl

/-! ### Claim C10 -/

/-- C10.  Classification of a context with non-empty captured stderr
depends only on the stderr text: any two contexts with the same non-empty
stderr — whatever their stdout or other fields — classify identically, so
stdout is consulted only when stderr is empty. -/
theorem c10_classification_depends_only_on_stderr (ctx1 ctx2 : DebugContext)
    (hne : ctx1.error ≠ []) (heq : ctx1.error = ctx2.error) :
    detect ctx1 = detect ctx2 := by
  have e1 : errText ctx1 = ctx1.error := if_neg hne
  have e2 : errText ctx2 = ctx1.error := by
    have : ctx2.error ≠ [] := heq ▸ hne
    rw [errText, if_neg this, heq]
  unfold detect
  rw [e1, e2]

/-- C10, witness: same stderr, different stdout, identical diagnosis. -/
theorem c10_witness :
    detect ⟨"c".toList, "out one".toList, "Permission denied".toList, "/t".toList⟩ =
    detect ⟨"c".toList, "out two".toList, "Permission denied".toList, "/t".toList⟩ :=
  c10_classification_depends_only_on_stderr
    ⟨"c".toList, "out one".toList, "Permission denied".toList, "/t".toList⟩
    ⟨"c".toList, "out two".toList, "Permission denied".toList, "/t".toList⟩
    (by decide) (by decide)

/-! ### Lemmas about position scanning of the location pattern (claim C8) -/

theorem prefix_append_cases {α : Type} (p a b : List α) (h : p <+: a ++ b) :
    p <+: a ∨ ∃ p2, p = a ++ p2 ∧ p2 <+: b := by
  induction a generalizing p with
  | nil => exact Or.inr ⟨p, rfl, h⟩
  | cons c a ih =>
    cases p with
    | nil => exact Or.inl List.nil_prefix
    | cons d p =>
      rw [List.cons_append] at h
      obtain ⟨hd, hp⟩ := List.cons_prefix_cons.mp h
      subst hd
      rcases ih p hp with h1 | ⟨p2, hp2, hb⟩
      · exact Or.inl (List.cons_prefix_cons.mpr ⟨rfl, h1⟩)
      · exact Or.inr ⟨p2, by rw [hp2, List.cons_append], hb⟩

theorem starter_not_prefix (p s1 s2 rest : Str)
    (hinf : ¬ (p <:+: (s1 ++ s2))) (hnl : lfChar ∉ p) :
    ¬ (p <+: (s2 ++ lfChar :: rest)) := by
  intro h
  rcases prefix_append_cases p s2 (lfChar :: rest) h with h1 | ⟨p2, hp2, hb⟩
  · obtain ⟨t, ht⟩ := h1
    exact hinf ⟨s1, t, by rw [List.append_assoc, ht]⟩
  · cases p2 with
    | nil =>
      rw [List.append_nil] at hp2
      subst hp2
      exact hinf ⟨s1, [], by simp⟩
    | cons d p2 =>
      obtain ⟨hd, _⟩ := List.cons_prefix_cons.mp hb
      apply hnl
      rw [hp2]
      exact List.mem_append_right s2 (hd ▸ List.mem_cons_self d p2)

theorem execAt_fileRe_none (u : Str)
    (h1 : ¬ (("at ".toList : Str) <+: u))
    (h2 : ¬ (("in ".toList : Str) <+: u))
    (h3 : ¬ (("from ".toList : Str) <+: u)) :
    execAt fileRe u = none := by
  have h1a : ¬ ((['a', 't', ' '] : Str) <+: u) := by simpa using h1
  have h2a : ¬ ((['i', 'n', ' '] : Str) <+: u) := by simpa using h2
  have h3a : ¬ ((['f', 'r', 'o', 'm', ' '] : Str) <+: u) := by simpa using h3
  simp [execAt, fileRe, seqs, List.foldr, mtch, h1a, h2a, h3a]

theorem jsMatch_append_none (re : Re) (t s : Str)
    (h : ∀ s1 s2, s = s1 ++ s2 → s2 ≠ [] → execAt re (s2 ++ t) = none) :
    jsMatch re (s ++ t) = jsMatch re t := by
  induction s with
  | nil => rfl
  | cons c s ih =>
    have h0 : execAt re (c :: (s ++ t)) = none := by
      have h1 := h [] (c :: s) rfl (by simp)
      simpa using h1
    rw [List.cons_append]
    simp only [jsMatch, h0]
    exact ih fun s1 s2 hs hne => h (c :: s1) s2 (by rw [hs]; rfl) hne

theorem jsMatch_fileRe_skip (s frag : Str)
    (h1 : ¬ ("at ".toList <:+: s)) (h2 : ¬ ("in ".toList <:+: s))
    (h3 : ¬ ("from ".toList <:+: s)) :
    jsMatch fileRe (s ++ lfChar :: frag) = jsMatch fileRe (lfChar :: frag) := by
  apply jsMatch_append_none
  intro s1 s2 hs hne
  apply execAt_fileRe_none
  · exact starter_not_prefix "at ".toList s1 s2 frag (hs ▸ h1) (by decide)
  · exact starter_not_prefix "in ".toList s1 s2 frag (hs ▸ h2) (by decide)
  · exact starter_not_prefix "from ".toList s1 s2 frag (hs ▸ h3) (by decide)

/-! ### Claim C8 -/

/-- A context whose error text contains an earlier `at …:…` fragment
before the stack frame, so the location pattern's leftmost match lands on
`noon:12` rather than on the frame. -/
def c8ctxBad : DebugContext :=
  ⟨"node app.js".toList, [],
   "SyntaxError: x\nat noon:12\nat Foo (/a/b/c.ext:42:7)".toList, "/tmp".toList⟩

/-- C8, counterexample.  The error text contains the stack-frame fragment
`at Foo (/a/b/c.ext:42:7)` and matches a syntax pattern, but the diagnosis
carries file `noon` and line 12 — the leftmost match of the location
pattern, produced by the earlier `at noon:12` — not `/a/b/c.ext` and 42 as
the claim requires. -/
theorem c8_counterexample :
    ("at Foo (/a/b/c.ext:42:7)".toList <:+: errText c8ctxBad) ∧
    (∃ re ∈ syntaxPats, (jsMatch re (errText c8ctxBad)).isSome) ∧
    detect c8ctxBad = some { type := ErrorType.SYNTAX,
                             message := "SyntaxError: x".toList,
                             file := some ("noon".toList), line := some 12,
                             suggestion := none, confidence := 0.8 } ∧
    some ("noon".toList) ≠ some ("/a/b/c.ext".toList) :=
  ⟨by decide, by decide, rfl, by decide⟩

/-- C8, amended.  Location extraction is independent of the matching
category, but takes the leftmost match of the location pattern, so the
stack-frame fragment only wins if no earlier `at ` / `in ` / `from `
occurrence precedes it.  For every context whose error text is a prefix
free of such occurrences followed by a line `at Foo (/a/b/c.ext:42:7)`,
and which matches some category pattern, the diagnosis carries file
`/a/b/c.ext` and line 42, whatever the matching category is. -/
theorem c8_amended (ctx : DebugContext) (s : Str)
    (h1 : ¬ ("at ".toList <:+: s)) (h2 : ¬ ("in ".toList <:+: s))
    (h3 : ¬ ("from ".toList <:+: s))
    (he : errText ctx = s ++ "\nat Foo (/a/b/c.ext:42:7)".toList)
    (tm : ErrorType × MatchRes) (hm : firstMatch (errText ctx) = some tm) :
    ∃ a, detect ctx = some a ∧ a.file = some ("/a/b/c.ext".toList) ∧
      a.line = some 42 := by
  have hdet := detect_of_firstMatch ctx tm hm
  obtain ⟨_, _, _, hfile, hline⟩ :=
    createAnalysis_spec tm.1 tm.2.m0 (errText ctx) tm.2.c1
  have hfrag : ("\nat Foo (/a/b/c.ext:42:7)".toList : Str) =
      lfChar :: "at Foo (/a/b/c.ext:42:7)".toList := by decide
  have hloc : locOf (errText ctx) = (some ("/a/b/c.ext".toList), some 42) := by
    rw [he, hfrag]
    unfold locOf
    rw [jsMatch_fileRe_skip s _ h1 h2 h3]
    decide
  exact ⟨_, hdet, by rw [hfile, hloc], by rw [hline, hloc]⟩

/-- A context whose error text is a starter-free line followed by the
stack-frame fragment. -/
def c8ctxGood : DebugContext :=
  ⟨"node app.js".toList, [],
   "SyntaxError: bad".toList ++ "\nat Foo (/a/b/c.ext:42:7)".toList, "/tmp".toList⟩

/-- C8, witness for the amended claim on a syntax-category text. -/
theorem c8_amended_witness :
    ∃ a, detect c8ctxGood = some a ∧ a.file = some ("/a/b/c.ext".toList) ∧
      a.line = some 42 :=
  c8_amended c8ctxGood "SyntaxError: bad".toList (by decide) (by decide) (by decide)
    rfl (ErrorType.SYNTAX, ⟨"SyntaxError: bad".toList, some ("bad".toList), none⟩)
    (by decide)

/-! ### Lemmas about the greedy capture of the module-name pattern (claim C2) -/

theorem tryLens_succ (s : Str) (caps : Caps) (k : Str → Caps → Option (Str × Caps)) (n : Nat) :
    tryLens s caps k (n + 1) =
      match k (s.drop (n + 1)) caps with
      | some r => some r
      | none => tryLens s caps k n := rfl

theorem tryLens_hit (s : Str) (caps : Caps) (k : Str → Caps → Option (Str × Caps))
    (r : Str × Caps) (m : Nat) :
    ∀ n : Nat, 1 ≤ m → m ≤ n → (∀ j, m < j → j ≤ n → k (s.drop j) caps = none) →
    k (s.drop m) caps = some r → tryLens s caps k n = some r
  | 0, hm, hle, _, _ => by omega
  | n + 1, hm, hle, hfail, hhit => by
    rw [tryLens_succ]
    rcases Nat.lt_or_ge m (n + 1) with hlt | hge
    · rw [hfail (n + 1) hlt (Nat.le_refl _)]
      exact tryLens_hit s caps k r m n hm (by omega)
        (fun j h1 h2 => hfail j h1 (by omega)) hhit
    · have he : m = n + 1 := by omega
      rw [← he, hhit]

theorem isPrefixOf_append_self (l t : Str) : l.isPrefixOf (l ++ t) = true :=
  List.isPrefixOf_iff_prefix.mpr (List.prefix_append l t)

theorem execAt_moduleFixRe (X : Str) (hne : X ≠ [])
    (hX : ∀ c ∈ X, notLineTerm c = true ∧ c ≠ quoteChar) :
    execAt moduleFixRe ("Cannot find module '".toList ++ (X ++ [quoteChar])) =
      some ([], ⟨some X, none⟩) := by
  unfold execAt moduleFixRe
  simp only [seqs, List.foldr, mtch, isPrefixOf_append_self, if_true]
  simp only [List.drop_left]
  have htw : (X ++ [quoteChar]).takeWhile notLineTerm = X ++ [quoteChar] := by
    apply List.takeWhile_eq_self_iff.mpr
    intro c hc
    rcases List.mem_append.mp hc with h | h
    · exact (hX c h).1
    · rw [List.mem_singleton.mp h]
      decide
  rw [htw]
  have hl : (X ++ [quoteChar]).length = X.length + 1 := by simp
  rw [hl]
  have hm1 : 1 ≤ X.length := by
    cases X with
    | nil => exact absurd rfl hne
    | cons c t => simp
  rw [tryLens_hit (X ++ [quoteChar]) emptyCaps _ ([], ⟨some X, none⟩) X.length
    (X.length + 1) hm1 (by omega) ?fail ?hit]
  case fail =>
    intro j h1 h2
    have hj : j = X.length + 1 := by omega
    subst hj
    have hd : (X ++ [quoteChar]).drop (X.length + 1) = [] :=
      List.drop_of_length_le (by simp)
    rw [hd]
    simp
  case hit =>
    have hd2 : (X ++ [quoteChar]).drop X.length = [quoteChar] := List.drop_left X [quoteChar]
    rw [hd2]
    simp [setCap, emptyCaps, List.take_left]
    decide

theorem jsMatch_of_execAt (re : Re) (s : Str) (r : Str × Caps) (hne : s ≠ [])
    (h : execAt re s = some r) : jsMatch re s = some (mkRes s r) := by
  cases s with
  | nil => exact absurd rfl hne
  | cons c t => simp [jsMatch, h]

theorem moduleNameOf_cfm (X : Str) (hne : X ≠ [])
    (hX : ∀ c ∈ X, notLineTerm c = true ∧ c ≠ quoteChar) :
    moduleNameOf ("Cannot find module '".toList ++ X ++ [quoteChar]) = X := by
  have hmsg : "Cannot find module '".toList ++ X ++ [quoteChar] =
      "Cannot find module '".toList ++ (X ++ [quoteChar]) := List.append_assoc _ _ _
  rw [hmsg]
  have hjs := jsMatch_of_execAt moduleFixRe
    ("Cannot find module '".toList ++ (X ++ [quoteChar])) ([], ⟨some X, none⟩)
    (by simp) (execAt_moduleFixRe X hne hX)
  unfold moduleNameOf
  rw [hjs]
  simp [mkRes, jsOr, hne]

theorem jsMatch_none_of (re : Re) : ∀ u : Str,
    (∀ v, v <:+ u → execAt re v = none) → jsMatch re u = none := by
  intro u
  induction u with
  | nil =>
    intro h
    have h0 := h [] (List.suffix_refl [])
    simp [jsMatch, h0]
  | cons c rest ih =>
    intro h
    have h0 := h (c :: rest) (List.suffix_refl _)
    simp only [jsMatch, h0]
    exact ih fun v hv => h v (hv.trans (List.suffix_cons c rest))

theorem execAt_moduleFixRe_none (u : Str)
    (h1 : "Cannot find module '".toList.isPrefixOf u = false)
    (h2 : "Module not found: ".toList.isPrefixOf u = false) :
    execAt moduleFixRe u = none := by
  unfold execAt moduleFixRe
  simp only [seqs, List.foldr, mtch, h1, h2]
  simp

theorem moduleNameOf_unknown (msg : Str)
    (h1 : ¬ (("Cannot find module '".toList : Str) <:+: msg))
    (h2 : ¬ (("Module not found: ".toList : Str) <:+: msg)) :
    moduleNameOf msg = "unknown".toList := by
  have hjs : jsMatch moduleFixRe msg = none := by
    apply jsMatch_none_of
    intro v hv
    apply execAt_moduleFixRe_none
    · exact Bool.eq_false_iff.mpr fun hb =>
        h1 ((List.isPrefixOf_iff_prefix.mp hb).isInfix.trans hv.isInfix)
    · exact Bool.eq_false_iff.mpr fun hb =>
        h2 ((List.isPrefixOf_iff_prefix.mp hb).isInfix.trans hv.isInfix)
  unfold moduleNameOf
  rw [hjs]

theorem execAt_moduleFixRe_mnf (X : Str) (hne : X ≠ [])
    (hX : ∀ c ∈ X, notLineTerm c = true) :
    execAt moduleFixRe ("Module not found: ".toList ++ X) =
      some ([], ⟨none, some X⟩) := by
  have hb1 : "Cannot find module '".toList.isPrefixOf
      ("Module not found: ".toList ++ X) = false := rfl
  unfold execAt moduleFixRe
  simp only [seqs, List.foldr, mtch, hb1, isPrefixOf_append_self, if_true,
    Bool.false_eq_true, if_false]
  simp only [List.drop_left]
  have htw : X.takeWhile notLineTerm = X := List.takeWhile_eq_self_iff.mpr hX
  rw [htw]
  have hm1 : 1 ≤ X.length := by
    cases X with
    | nil => exact absurd rfl hne
    | cons c t => simp
  rw [tryLens_hit X emptyCaps _ ([], ⟨none, some X⟩) X.length X.length hm1
    (Nat.le_refl _) ?fail ?hit]
  case fail =>
    intro j hj1 hj2
    exact absurd (Nat.lt_of_lt_of_le hj1 hj2) (Nat.lt_irrefl _)
  case hit =>
    rw [List.drop_length]
    simp [setCap, emptyCaps]

theorem moduleNameOf_mnf (X : Str) (hne : X ≠ [])
    (hX : ∀ c ∈ X, notLineTerm c = true) :
    moduleNameOf ("Module not found: ".toList ++ X) = X := by
  have hjs := jsMatch_of_execAt moduleFixRe ("Module not found: ".toList ++ X)
    ([], ⟨none, some X⟩) (by simp) (execAt_moduleFixRe_mnf X hne hX)
  unfold moduleNameOf
  rw [hjs]
  simp [mkRes, jsOr, hne]

/-! ### Claim C2 -/

/-- A module diagnosis in one of the two phrasings the fix synthesizer
re-parses. -/
def moduleAnalysis : ErrorAnalysis :=
  { type := ErrorType.MODULE, message := "Cannot find module 'left-pad'".toList,
    suggestion := some ("Install missing module: left-pad".toList), confidence := 0.8 }

/-- A store holding one session carrying `moduleAnalysis`. -/
def moduleState : EngineState :=
  ⟨[("s".toList, { id := "s".toList, context := sampleCtx, analysis := some moduleAnalysis })]⟩

/-- A module diagnosis in the other re-parsed phrasing
`Module not found: X`. -/
def mnfAnalysis : ErrorAnalysis :=
  { type := ErrorType.MODULE, message := "Module not found: left-pad".toList,
    suggestion := some ("Install missing module: left-pad".toList), confidence := 0.8 }

/-- A store holding one session carrying `mnfAnalysis`. -/
def mnfState : EngineState :=
  ⟨[("s".toList, { id := "s".toList, context := sampleCtx, analysis := some mnfAnalysis })]⟩

/-- A module diagnosis in the `Failed to resolve import "X"` phrasing,
which the fix synthesizer does not re-parse. -/
def ftrAnalysis : ErrorAnalysis :=
  { type := ErrorType.MODULE,
    message := "Failed to resolve import \"left-pad\"".toList,
    suggestion := some ("Install missing module: left-pad".toList), confidence := 0.8 }

/-- A store holding one session carrying `ftrAnalysis`. -/
def ftrState : EngineState :=
  ⟨[("s".toList, { id := "s".toList, context := sampleCtx, analysis := some ftrAnalysis })]⟩

/-- The Python-style module diagnosis the detector produces for
`No module named 'left-pad'` — reachable via `detect`, see the first
conjunct of the counterexample. -/
def badModuleAnalysis : ErrorAnalysis :=
  { type := ErrorType.MODULE, message := "No module named 'left-pad'".toList,
    suggestion := some ("Install missing module: left-pad".toList), confidence := 0.8 }

/-- The context producing `badModuleAnalysis`. -/
def badModuleCtx : DebugContext :=
  ⟨"python app.py".toList, [], "No module named 'left-pad'".toList, "/tmp".toList⟩

/-- A store holding one session carrying `badModuleAnalysis`. -/
def badModuleState : EngineState :=
  ⟨[("s".toList, { id := "s".toList, context := badModuleCtx,
                   analysis := some badModuleAnalysis })]⟩

/-- C2, counterexample.  The detector classifies `No module named
'left-pad'` as a module diagnosis whose message contains the module name
`left-pad`, but the fix synthesizer re-parses the message with a pattern
covering only the two phrasings `Cannot find module '…'` and
`Module not found: …`, so the single fix it produces describes the module
as `unknown`: its description does not contain `left-pad`. -/
theorem c2_counterexample :
    detect badModuleCtx = some badModuleAnalysis ∧
    ("left-pad".toList <:+: badModuleAnalysis.message) ∧
    ∃ st2 f, generateFixes badModuleState "s".toList [] = Except.ok (st2, [f]) ∧
      f.type = FixType.INSTALL_PACKAGE ∧ f.confidence = 0.9 ∧
      f.description = "Install missing module: unknown".toList ∧
      ¬ ("left-pad".toList <:+: f.description) := by
  refine ⟨rfl, by decide, _, _, rfl, rfl, rfl, rfl, by decide⟩

/-- C2, amended.  For every module-category diagnosis, `generateFixes`
returns exactly one FixAction of kind install-package with confidence 0.9
whose description is `Install missing module: ` followed by the name
re-extracted from the message.  The description contains X when the
message is in one of the two phrasings the synthesizer re-parses:
`Cannot find module 'X'` (single-line, quote-free X) or
`Module not found: X` (single-line X).  For any module diagnosis whose
message contains neither re-parsed phrasing — in particular the
detector's other two module phrasings `Failed to resolve import "X"` and
`No module named 'X'` — the description is the placeholder
`Install missing module: unknown` (see the counterexample). -/
theorem c2_amended (st : EngineState) (sid ai : Str) (session : DebugSession)
    (analysis : ErrorAnalysis) (hs : getSession st sid = some session)
    (ha : session.analysis = some analysis) (ht : analysis.type = ErrorType.MODULE) :
    ∃ st2 f, generateFixes st sid ai = Except.ok (st2, [f]) ∧
      f.type = FixType.INSTALL_PACKAGE ∧ f.confidence = 0.9 ∧
      f.description = "Install missing module: ".toList ++ moduleNameOf analysis.message ∧
      (∀ X : Str, X ≠ [] → (∀ c ∈ X, notLineTerm c = true ∧ c ≠ quoteChar) →
        analysis.message = "Cannot find module '".toList ++ X ++ [quoteChar] →
        f.description = "Install missing module: ".toList ++ X) ∧
      (∀ X : Str, X ≠ [] → (∀ c ∈ X, notLineTerm c = true) →
        analysis.message = "Module not found: ".toList ++ X →
        f.description = "Install missing module: ".toList ++ X) ∧
      (¬ (("Cannot find module '".toList : Str) <:+: analysis.message) →
       ¬ (("Module not found: ".toList : Str) <:+: analysis.message) →
        f.description = "Install missing module: unknown".toList) := by
  simp only [generateFixes, hs, ha, mkFixes, ht]
  refine ⟨_, _, rfl, rfl, rfl, rfl, ?cfm, ?mnf, ?unk⟩
  case cfm =>
    intro X hne hX hmsg
    show "Install missing module: ".toList ++ moduleNameOf analysis.message =
      "Install missing module: ".toList ++ X
    rw [hmsg, moduleNameOf_cfm X hne hX]
  case mnf =>
    intro X hne hX hmsg
    show "Install missing module: ".toList ++ moduleNameOf analysis.message =
      "Install missing module: ".toList ++ X
    rw [hmsg, moduleNameOf_mnf X hne hX]
  case unk =>
    intro h1 h2
    show "Install missing module: ".toList ++ moduleNameOf analysis.message =
      "Install missing module: unknown".toList
    rw [moduleNameOf_unknown analysis.message h1 h2]
    decide

/-- C2, witness for the amended claim at module name `left-pad` in all
three branches: both re-parsed phrasings yield a description containing
`left-pad`, and the un-parsed `Failed to resolve import` phrasing yields
the `unknown` placeholder. -/
theorem c2_amended_witness :
    (∃ st2 f, generateFixes moduleState "s".toList [] = Except.ok (st2, [f]) ∧
      f.type = FixType.INSTALL_PACKAGE ∧ f.confidence = 0.9 ∧
      f.description = "Install missing module: left-pad".toList) ∧
    (∃ st2 f, generateFixes mnfState "s".toList [] = Except.ok (st2, [f]) ∧
      f.type = FixType.INSTALL_PACKAGE ∧ f.confidence = 0.9 ∧
      f.description = "Install missing module: left-pad".toList) ∧
    (∃ st2 f, generateFixes ftrState "s".toList [] = Except.ok (st2, [f]) ∧
      f.type = FixType.INSTALL_PACKAGE ∧ f.confidence = 0.9 ∧
      f.description = "Install missing module: unknown".toList) := by
  refine ⟨?one, ?two, ?three⟩
  case one =>
    obtain ⟨st2, f, h1, h2, h3, _, h5, _, _⟩ := c2_amended moduleState "s".toList []
      { id := "s".toList, context := sampleCtx, analysis := some moduleAnalysis }
      moduleAnalysis rfl rfl rfl
    exact ⟨st2, f, h1, h2, h3,
      by rw [h5 "left-pad".toList (by decide) (by decide) (by decide)]; decide⟩
  case two =>
    obtain ⟨st2, f, h1, h2, h3, _, _, h6, _⟩ := c2_amended mnfState "s".toList []
      { id := "s".toList, context := sampleCtx, analysis := some mnfAnalysis }
      mnfAnalysis rfl rfl rfl
    exact ⟨st2, f, h1, h2, h3,
      by rw [h6 "left-pad".toList (by decide) (by decide) (by decide)]; decide⟩
  case three =>
    obtain ⟨st2, f, h1, h2, h3, _, _, _, h7⟩ := c2_amended ftrState "s".toList []
      { id := "s".toList, context := sampleCtx, analysis := some ftrAnalysis }
      ftrAnalysis rfl rfl rfl
    exact ⟨st2, f, h1, h2, h3, h7 (by decide) (by decide)⟩

end Buggywug
